import Mathlib

/-!
Verification of the core file-organizing engine of the Lume media archiver.

Strings are modelled as lists of characters (`GoStr`); for the ASCII inputs
exercised here this agrees with Go's byte-based `len`/slicing.  Filesystem
effects are modelled by explicit environments describing the outcome of each
primitive call, together with an event trace recording the order of the calls.
-/

namespace Lume

set_option maxRecDepth 4000

/-- Strings of the Go program, modelled as lists of characters. -/
abbrev GoStr := List Char

/-- Go `unicode.IsSpace` restricted to the Latin-1 range, as used by
`strings.TrimSpace`. -/
def goIsSpace (c : Char) : Bool :=
  c == ' ' || c == '\t' || c == '\n' || c == Char.ofNat 11 || c == Char.ofNat 12 ||
    c == '\r' || c == Char.ofNat 133 || c == Char.ofNat 160

/-- Go `strings.TrimSpace`: drop whitespace from both ends. -/
def trimSpace (s : GoStr) : GoStr :=
  ((s.dropWhile goIsSpace).reverse.dropWhile goIsSpace).reverse

/-- Go `strings.ReplaceAll(s, string(c), "_")` for a single character `c`. -/
def replaceAllChar (s : GoStr) (c : Char) : GoStr :=
  s.map fun x => if x = c then '_' else x

/-- The forbidden character set of `SanitizeFolderName`. -/
def invalidChars : GoStr := ("<>:\"/\\|?*.".data)

/-- The loop `for _, char := range invalidChars { name = strings.ReplaceAll(...) }`. -/
def replaceInvalid (s : GoStr) : GoStr :=
  invalidChars.foldl replaceAllChar s

/-- Go `strings.ToUpper` (ASCII). -/
def upperStr (s : GoStr) : GoStr := s.map Char.toUpper

/-- Go `strings.ToLower` (ASCII). -/
def lowerStr (s : GoStr) : GoStr := s.map Char.toLower

/-- The reserved-name set of `SanitizeFolderName` (exactly the keys of the Go
`reserved` map literal). -/
def reservedNames : List GoStr :=
  [("CON".data), ("PRN".data), ("AUX".data), ("NUL".data), ("COM1".data), ("LPT1".data)]

/-- `organizer.SanitizeFolderName`, translated clause by clause from the Go
source: trim, map `""`/`"."`/`".."` to `"Unknown"`, replace forbidden
characters by `'_'`, append `"_safe"` to reserved device names, truncate to
100 characters. -/
def SanitizeFolderName (input : GoStr) : GoStr :=
  if trimSpace input = [] ∨ trimSpace input = (".".data) ∨ trimSpace input = ("..".data) then
    ("Unknown".data)
  else if upperStr (replaceInvalid (trimSpace input)) ∈ reservedNames then
    replaceInvalid (trimSpace input) ++ ("_safe".data)
  else if (replaceInvalid (trimSpace input)).length > 100 then
    (replaceInvalid (trimSpace input)).take 100
  else
    replaceInvalid (trimSpace input)

-- The test vectors of `TestSanitizeFolderName`, replayed against the embedding.
example : SanitizeFolderName ("CON".data) = ("CON_safe".data) := by decide

example : SanitizeFolderName ("COM1".data) = ("COM1_safe".data) := by decide

example : SanitizeFolderName ("my<file>".data) = ("my_file_".data) := by decide

example : SanitizeFolderName ("folder/path".data) = ("folder_path".data) := by decide

example : SanitizeFolderName ("file:name".data) = ("file_name".data) := by decide

example : SanitizeFolderName ("  trim  ".data) = ("trim".data) := by decide

example : SanitizeFolderName ("".data) = ("Unknown".data) := by decide

example : SanitizeFolderName (".".data) = ("Unknown".data) := by decide

example : SanitizeFolderName ("..".data) = ("Unknown".data) := by decide

example :
    SanitizeFolderName ('a' :: List.replicate 150 'b') = 'a' :: List.replicate 99 'b' := by
  decide

/-- An input whose sanitized form is truncated to end in a space. -/
def c5Input : GoStr := List.replicate 99 'a' ++ ' ' :: List.replicate 10 'b'

/-- C5 counterexample: the sanitizer is not idempotent.  For 99 `'a'`s, a
space, then 10 `'b'`s, truncation to 100 characters leaves a trailing space,
which a second application trims away. -/
theorem c5_sanitize_not_idempotent :
    SanitizeFolderName (SanitizeFolderName c5Input) ≠ SanitizeFolderName c5Input := by
  decide

/-- C6 counterexample: `"COM2"` case-insensitively matches a reserved device
name according to the claim (`CON, PRN, AUX, NUL, COM1, LPT1, and the other
COM/LPT numbers`), but the sanitizer does not append `"_safe"` to it: the
code's reserved set contains only `CON, PRN, AUX, NUL, COM1, LPT1`. -/
theorem c6_com2_not_safed :
    SanitizeFolderName ("COM2".data) ≠ ("COM2_safe".data) ∧
      SanitizeFolderName ("COM2".data) = ("COM2".data) := by
  constructor
  · decide
  · decide

/-- Pointwise form of the forbidden-character replacement. -/
def replF (c : Char) : Char := if c ∈ invalidChars then '_' else c

theorem foldl_replaceAllChar_eq_map :
    ∀ (cs : GoStr), '_' ∉ cs → ∀ (s : GoStr),
      List.foldl replaceAllChar s cs = s.map (fun x => if x ∈ cs then '_' else x) := by
  intro cs
  induction cs with
  | nil =>
    intro _ s
    simp
  | cons c rest ih =>
    intro hni s
    have hnr : '_' ∉ rest := fun h => hni (List.mem_cons_of_mem _ h)
    rw [List.foldl_cons, ih hnr, replaceAllChar, List.map_map]
    have hfun : ((fun x => if x ∈ rest then '_' else x) ∘ fun x => if x = c then '_' else x)
        = fun x => if x ∈ c :: rest then '_' else x := by
      funext x
      by_cases hx : x = c
      · subst hx
        simp [Function.comp, hnr]
      · simp [Function.comp, hx, List.mem_cons]
    rw [hfun]

theorem replaceInvalid_eq_map (s : GoStr) : replaceInvalid s = s.map replF :=
  foldl_replaceAllChar_eq_map invalidChars (by decide) s

theorem goIsSpace_replF (c : Char) : goIsSpace (replF c) = goIsSpace c := by
  by_cases h : c ∈ invalidChars
  · have h' : c ∈ [('<' : Char), '>', ':', '"', '/', '\\', '|', '?', '*', '.'] := h
    fin_cases h' <;> decide
  · simp only [replF, if_neg h]

theorem replF_ne_dot (c : Char) : replF c ≠ '.' := by
  by_cases h : c ∈ invalidChars
  · simp only [replF, if_pos h]
    decide
  · simp only [replF, if_neg h]
    rintro rfl
    exact h (by decide)

theorem replF_idem (c : Char) : replF (replF c) = replF c := by
  by_cases h : c ∈ invalidChars
  · simp only [replF, if_pos h]
    decide
  · simp only [replF, if_neg h]

theorem getLast?_map_eq (f : Char → Char) (s : GoStr) :
    (s.map f).getLast? = Option.map f s.getLast? := by
  rw [← List.head?_reverse, ← List.head?_reverse, ← List.map_reverse, List.head?_map]

theorem head?_append_left (l₁ l₂ : GoStr) (h : l₁ ≠ []) : (l₁ ++ l₂).head? = l₁.head? := by
  cases l₁ with
  | nil => exact absurd rfl h
  | cons a t => simp

theorem getLast?_append_right (l₁ l₂ : GoStr) (h : l₂ ≠ []) :
    (l₁ ++ l₂).getLast? = l₂.getLast? := by
  rw [← List.head?_reverse, ← List.head?_reverse (l := l₂), List.reverse_append]
  exact head?_append_left _ _ (by simpa using h)

theorem head?_dropWhile_false (p : Char → Bool) :
    ∀ (s : GoStr) (c : Char), (s.dropWhile p).head? = some c → p c = false := by
  intro s
  induction s with
  | nil =>
    intro c h
    simp [List.dropWhile] at h
  | cons a t ih =>
    intro c h
    by_cases hp : p a = true
    · rw [List.dropWhile_cons, if_pos hp] at h
      exact ih c h
    · rw [List.dropWhile_cons, if_neg hp] at h
      simp only [List.head?_cons, Option.some.injEq] at h
      simp only [Bool.not_eq_true] at hp
      exact h ▸ hp

theorem dropWhile_eq_self_of_head (p : Char → Bool) (s : GoStr)
    (h : ∀ c, s.head? = some c → p c = false) : s.dropWhile p = s := by
  cases s with
  | nil => rfl
  | cons a t =>
    have ha : p a = false := h a rfl
    rw [List.dropWhile_cons, if_neg (by simp [ha])]

theorem exists_append_dropWhile (p : Char → Bool) :
    ∀ (s : GoStr), ∃ t : GoStr, t ++ s.dropWhile p = s := by
  intro s
  induction s with
  | nil => exact ⟨[], rfl⟩
  | cons a t ih =>
    by_cases hp : p a = true
    · obtain ⟨pre, hpre⟩ := ih
      exact ⟨a :: pre, by rw [List.dropWhile_cons, if_pos hp, List.cons_append, hpre]⟩
    · exact ⟨[], by rw [List.nil_append, List.dropWhile_cons, if_neg hp]⟩

theorem trimSpace_eq_self (s : GoStr)
    (h1 : ∀ c, s.head? = some c → goIsSpace c = false)
    (h2 : ∀ c, s.getLast? = some c → goIsSpace c = false) : trimSpace s = s := by
  unfold trimSpace
  rw [dropWhile_eq_self_of_head goIsSpace s h1]
  rw [dropWhile_eq_self_of_head goIsSpace s.reverse
      (fun c hc => h2 c (by rwa [List.head?_reverse] at hc))]
  exact List.reverse_reverse s

theorem trimSpace_head_nonspace (s : GoStr) (c : Char)
    (h : (trimSpace s).head? = some c) : goIsSpace c = false := by
  unfold trimSpace at h
  rw [List.head?_reverse] at h
  have htne : (s.dropWhile goIsSpace).reverse.dropWhile goIsSpace ≠ [] := by
    intro h0
    rw [h0] at h
    simp at h
  obtain ⟨pre, hpre⟩ := exists_append_dropWhile goIsSpace (s.dropWhile goIsSpace).reverse
  have h2 : ((s.dropWhile goIsSpace).reverse).getLast? = some c := by
    rw [← hpre, getLast?_append_right _ _ htne]
    exact h
  rw [List.getLast?_reverse] at h2
  exact head?_dropWhile_false goIsSpace s c h2

theorem trimSpace_getLast_nonspace (s : GoStr) (c : Char)
    (h : (trimSpace s).getLast? = some c) : goIsSpace c = false := by
  unfold trimSpace at h
  rw [List.getLast?_reverse] at h
  exact head?_dropWhile_false goIsSpace _ c h

theorem head?_take_pos (s : GoStr) (k : Nat) (hk : 0 < k) : (s.take k).head? = s.head? := by
  cases s with
  | nil => simp
  | cons a t =>
    cases k with
    | zero => omega
    | succ n => simp [List.take]

/-- A folder-name segment that is already fully sanitized is a fixed point of
the sanitizer. -/
theorem sanitize_fixed (s : GoStr)
    (ht : trimSpace s = s) (h0 : s ≠ []) (h1 : s ≠ (".".data)) (h2 : s ≠ ("..".data))
    (hinv : replaceInvalid s = s) (hres : upperStr s ∉ reservedNames)
    (hlen : s.length ≤ 100) : SanitizeFolderName s = s := by
  unfold SanitizeFolderName
  rw [ht, hinv]
  rw [if_neg (by simp [h0, h1, h2])]
  rw [if_neg hres]
  rw [if_neg (by omega)]

/-- `true` iff the string does not end in a (Go) whitespace character. -/
def noTrailingSpace (s : GoStr) : Bool :=
  match s.getLast? with
  | some c => !goIsSpace c
  | none => true

/-- C5 amended: `sanitize(sanitize(x)) == sanitize(x)` holds for every `x`
whose sanitized result does not end in a whitespace character (in particular
whenever no truncation occurs).  Truncation to 100 characters can leave a
trailing space, and a second application trims it, which is the only way
idempotence fails. -/
theorem c5_amended_idempotent_no_trailing_space (x : GoStr)
    (h : noTrailingSpace (SanitizeFolderName x) = true) :
    SanitizeFolderName (SanitizeFolderName x) = SanitizeFolderName x := by
  by_cases hA : trimSpace x = [] ∨ trimSpace x = (".".data) ∨ trimSpace x = ("..".data)
  · have hx : SanitizeFolderName x = ("Unknown".data) := by
      unfold SanitizeFolderName
      rw [if_pos hA]
    rw [hx]
    decide
  · have hne : trimSpace x ≠ [] := fun h0 => hA (Or.inl h0)
    have hrmap : replaceInvalid (trimSpace x) = (trimSpace x).map replF :=
      replaceInvalid_eq_map (trimSpace x)
    have hrne : replaceInvalid (trimSpace x) ≠ [] := by
      rw [hrmap]
      simpa using hne
    have hrhead : ∀ c, (replaceInvalid (trimSpace x)).head? = some c → goIsSpace c = false := by
      intro c hc
      rw [hrmap, List.head?_map] at hc
      cases hh : (trimSpace x).head? with
      | none =>
        rw [hh] at hc
        simp at hc
      | some c0 =>
        rw [hh] at hc
        simp at hc
        rw [← hc, goIsSpace_replF]
        exact trimSpace_head_nonspace x c0 hh
    have hrlast : ∀ c, (replaceInvalid (trimSpace x)).getLast? = some c → goIsSpace c = false := by
      intro c hc
      rw [hrmap, getLast?_map_eq] at hc
      cases hh : (trimSpace x).getLast? with
      | none =>
        rw [hh] at hc
        simp at hc
      | some c0 =>
        rw [hh] at hc
        simp at hc
        rw [← hc, goIsSpace_replF]
        exact trimSpace_getLast_nonspace x c0 hh
    have htrim_r : trimSpace (replaceInvalid (trimSpace x)) = replaceInvalid (trimSpace x) :=
      trimSpace_eq_self _ hrhead hrlast
    have hdot : '.' ∉ replaceInvalid (trimSpace x) := by
      rw [hrmap]
      intro hm
      obtain ⟨b, _, hb⟩ := List.mem_map.1 hm
      exact replF_ne_dot b hb
    have hrd1 : replaceInvalid (trimSpace x) ≠ (".".data) := by
      intro h0
      apply hdot
      rw [h0]
      decide
    have hrd2 : replaceInvalid (trimSpace x) ≠ ("..".data) := by
      intro h0
      apply hdot
      rw [h0]
      decide
    have hmapfix : (replaceInvalid (trimSpace x)).map replF = replaceInvalid (trimSpace x) := by
      conv_lhs => rw [hrmap]
      rw [List.map_map]
      rw [show replF ∘ replF = replF from funext replF_idem]
      rw [← hrmap]
    have hrinv : replaceInvalid (replaceInvalid (trimSpace x)) = replaceInvalid (trimSpace x) := by
      rw [replaceInvalid_eq_map, hmapfix]
    have hall4 : ∀ m ∈ reservedNames, List.length m ≤ 4 := by decide
    have hsl : (("_safe".data) : GoStr).length = 5 := rfl
    by_cases hB : upperStr (replaceInvalid (trimSpace x)) ∈ reservedNames
    · have hy : SanitizeFolderName x = replaceInvalid (trimSpace x) ++ ("_safe".data) := by
        unfold SanitizeFolderName
        rw [if_neg hA, if_pos hB]
      have hlen4 : (replaceInvalid (trimSpace x)).length ≤ 4 := by
        have h4 := hall4 _ hB
        simpa [upperStr] using h4
      rw [hy]
      apply sanitize_fixed
      · apply trimSpace_eq_self
        · intro c hc
          rw [head?_append_left _ _ hrne] at hc
          exact hrhead c hc
        · intro c hc
          rw [getLast?_append_right _ _ (by decide)] at hc
          have he : (("_safe".data) : GoStr).getLast? = some 'e' := rfl
          rw [he] at hc
          simp only [Option.some.injEq] at hc
          subst hc
          decide
      · simp
      · intro h0
        have hl := congrArg List.length h0
        rw [List.length_append, hsl] at hl
        have h1l : ((".".data) : GoStr).length = 1 := rfl
        rw [h1l] at hl
        omega
      · intro h0
        have hl := congrArg List.length h0
        rw [List.length_append, hsl] at hl
        have h2l : (("..".data) : GoStr).length = 2 := rfl
        rw [h2l] at hl
        omega
      · rw [replaceInvalid_eq_map, List.map_append, hmapfix]
        congr 1
      · intro hmem
        have h4 := hall4 _ hmem
        simp only [upperStr, List.length_map, List.length_append, hsl] at h4
        omega
      · rw [List.length_append, hsl]
        omega
    · by_cases hC : (replaceInvalid (trimSpace x)).length > 100
      · have hy : SanitizeFolderName x = (replaceInvalid (trimSpace x)).take 100 := by
          unfold SanitizeFolderName
          rw [if_neg hA, if_neg hB, if_pos hC]
        have hlen100 : ((replaceInvalid (trimSpace x)).take 100).length = 100 := by
          rw [List.length_take]
          omega
        rw [hy] at h ⊢
        apply sanitize_fixed
        · apply trimSpace_eq_self
          · intro c hc
            rw [head?_take_pos _ 100 (by omega)] at hc
            exact hrhead c hc
          · intro c hc
            unfold noTrailingSpace at h
            rw [hc] at h
            simpa using h
        · intro h0
          rw [h0] at hlen100
          simp at hlen100
        · intro h0
          rw [h0] at hlen100
          exact absurd hlen100 (by decide)
        · intro h0
          rw [h0] at hlen100
          exact absurd hlen100 (by decide)
        · rw [replaceInvalid_eq_map, List.map_take, hmapfix]
        · intro hmem
          have h4 := hall4 _ hmem
          simp only [upperStr, List.length_map] at h4
          omega
        · omega
      · have hy : SanitizeFolderName x = replaceInvalid (trimSpace x) := by
          unfold SanitizeFolderName
          rw [if_neg hA, if_neg hB, if_neg hC]
        rw [hy]
        exact sanitize_fixed _ htrim_r hrne hrd1 hrd2 hrinv hB (by omega)

/-- C5 witness: the amended idempotence theorem applied at `"photo"`. -/
theorem c5_amended_idempotent_no_trailing_space_witness :
    noTrailingSpace (SanitizeFolderName ("photo".data)) = true ∧
      SanitizeFolderName (SanitizeFolderName ("photo".data)) =
        SanitizeFolderName ("photo".data) :=
  ⟨by decide, c5_amended_idempotent_no_trailing_space ("photo".data) (by decide)⟩

/-- C6 amended: the reserved set of the code is exactly
`CON, PRN, AUX, NUL, COM1, LPT1`.  Every input whose trimmed,
forbidden-character-replaced form case-insensitively matches one of those six
names gets `"_safe"` appended, and `""`, `"."`, `".."` (after trimming) always
yield `"Unknown"`.  (`COM2`–`COM9` and `LPT2`–`LPT9` are not reserved.) -/
theorem c6_amended_reserved_and_unknown (x : GoStr) :
    (upperStr (replaceInvalid (trimSpace x)) ∈ reservedNames →
        SanitizeFolderName x = replaceInvalid (trimSpace x) ++ ("_safe".data)) ∧
    (trimSpace x = [] ∨ trimSpace x = (".".data) ∨ trimSpace x = ("..".data) →
        SanitizeFolderName x = ("Unknown".data)) := by
  constructor
  · intro hB
    have hA : ¬(trimSpace x = [] ∨ trimSpace x = (".".data) ∨ trimSpace x = ("..".data)) := by
      rintro (h0 | h0 | h0) <;> rw [h0] at hB <;> revert hB <;> decide
    unfold SanitizeFolderName
    rw [if_neg hA, if_pos hB]
  · intro hA
    unfold SanitizeFolderName
    rw [if_pos hA]

/-- C6 witness: the amended reserved/Unknown theorem applied at `"con"` and
`" . "`. -/
theorem c6_amended_reserved_and_unknown_witness :
    SanitizeFolderName ("con".data) = ("con_safe".data) ∧
      SanitizeFolderName (" . ".data) = ("Unknown".data) := by
  constructor
  · have h := (c6_amended_reserved_and_unknown ("con".data)).1 (by decide)
    rw [h]
    decide
  · exact (c6_amended_reserved_and_unknown (" . ".data)).2 (by decide)

/-! ### Source classifier (`metadata.DetectSource`)

The Go function iterates over a *map* literal of `(pattern, label)` pairs;
Go's map iteration order is unspecified and deliberately randomized, so the
function is modelled as parametrized by the iteration order, an arbitrary
permutation of the entries of the map literal. -/

/-- Go `strings.Contains`. -/
def containsSub : GoStr → GoStr → Bool
  | [], needle => needle.isEmpty
  | h :: t, needle => needle.isPrefixOf (h :: t) || containsSub t needle

/-- The entries of the `patterns` map literal of `DetectSource`, in source
order. -/
def patterns : List (GoStr × GoStr) :=
  [(("whatsapp".data), ("WhatsApp".data)),
   (("-wa".data), ("WhatsApp".data)),
   (("telegram".data), ("Telegram".data)),
   (("screenshot".data), ("Screenshots".data)),
   (("ekran".data), ("Screenshots".data)),
   (("instagram".data), ("Instagram".data)),
   (("ig_".data), ("Instagram".data)),
   (("camera".data), ("Camera".data)),
   (("dcim".data), ("Camera".data)),
   (("pxl_".data), ("Camera".data)),
   (("img_".data), ("Camera".data)),
   (("vid_".data), ("Camera".data))]

/-- The `for pattern, source := range patterns` loop body: first entry whose
pattern occurs in the lowered filename wins. -/
def firstMatch (lower : GoStr) : List (GoStr × GoStr) → Option GoStr
  | [] => none
  | pl :: rest => if containsSub lower pl.1 then some pl.2 else firstMatch lower rest

/-- `metadata.DetectSource`, parametrized by the map iteration order. -/
def DetectSourceWith (order : List (GoStr × GoStr)) (filename : GoStr) : GoStr :=
  match firstMatch (lowerStr (trimSpace filename)) order with
  | some l => l
  | none => ("Other_Imports".data)

/-- One possible iteration order of the Go map: the same entries with the two
`img_`/`vid_` entries first. -/
def patternsAlt : List (GoStr × GoStr) :=
  [(("img_".data), ("Camera".data)),
   (("vid_".data), ("Camera".data)),
   (("whatsapp".data), ("WhatsApp".data)),
   (("-wa".data), ("WhatsApp".data)),
   (("telegram".data), ("Telegram".data)),
   (("screenshot".data), ("Screenshots".data)),
   (("ekran".data), ("Screenshots".data)),
   (("instagram".data), ("Instagram".data)),
   (("ig_".data), ("Instagram".data)),
   (("camera".data), ("Camera".data)),
   (("dcim".data), ("Camera".data)),
   (("pxl_".data), ("Camera".data))]

theorem patterns_perm_alt : List.Perm patterns patternsAlt := by
  have h1 : patterns = patterns.take 10 ++ patterns.drop 10 := (List.take_append_drop 10 _).symm
  have h2 : patternsAlt = patterns.drop 10 ++ patterns.take 10 := by rfl
  rw [h1, h2]
  exact List.perm_append_comm

/-- C4 counterexample: two legal iteration orders of the pattern map disagree
on `"whatsapp_IMG_001.jpg"` (which contains both `"whatsapp"` and `"img_"`),
so repeated runs of the classifier can return different labels. -/
theorem c4_order_dependent_label :
    List.Perm patterns patternsAlt ∧
      DetectSourceWith patterns ("whatsapp_IMG_001.jpg".data) ≠
        DetectSourceWith patternsAlt ("whatsapp_IMG_001.jpg".data) :=
  ⟨patterns_perm_alt, by decide⟩

theorem firstMatch_eq_none_iff (lower : GoStr) :
    ∀ (l : List (GoStr × GoStr)),
      firstMatch lower l = none ↔ ∀ pl ∈ l, containsSub lower pl.1 = false := by
  intro l
  induction l with
  | nil => simp [firstMatch]
  | cons pl rest ih =>
    by_cases hm : containsSub lower pl.1 = true
    · simp [firstMatch, hm]
    · simp only [Bool.not_eq_true] at hm
      simp [firstMatch, hm, ih]

theorem firstMatch_some_mem (lower : GoStr) :
    ∀ (l : List (GoStr × GoStr)) (lab : GoStr), firstMatch lower l = some lab →
      ∃ pl ∈ l, containsSub lower pl.1 = true ∧ pl.2 = lab := by
  intro l
  induction l with
  | nil =>
    intro lab h
    simp [firstMatch] at h
  | cons pl rest ih =>
    intro lab h
    by_cases hm : containsSub lower pl.1 = true
    · rw [firstMatch, if_pos hm] at h
      exact ⟨pl, List.mem_cons_self _ _, hm, by injection h⟩
    · rw [firstMatch, if_neg hm] at h
      obtain ⟨pl', hmem, hc, hlab⟩ := ih lab h
      exact ⟨pl', List.mem_cons_of_mem _ hmem, hc, hlab⟩

/-- C4 amended: under any iteration order of the pattern map, no match yields
`"Other_Imports"`; and all iteration orders agree on a filename exactly in so
far as every pattern matching it carries the same label.  (For a filename
matching patterns with different labels the result is order-dependent, see the
counterexample.) -/
theorem c4_amended_determinism (f : GoStr) (order : List (GoStr × GoStr))
    (hperm : List.Perm patterns order) :
    ((∀ pl ∈ patterns, containsSub (lowerStr (trimSpace f)) pl.1 = false) →
        DetectSourceWith order f = ("Other_Imports".data)) ∧
    ((∀ pl ∈ patterns, ∀ pl' ∈ patterns,
        containsSub (lowerStr (trimSpace f)) pl.1 = true →
        containsSub (lowerStr (trimSpace f)) pl'.1 = true → pl.2 = pl'.2) →
        DetectSourceWith order f = DetectSourceWith patterns f) := by
  constructor
  · intro hno
    unfold DetectSourceWith
    rw [(firstMatch_eq_none_iff _ _).2 (fun pl hpl => hno pl (hperm.mem_iff.2 hpl))]
  · intro huniq
    unfold DetectSourceWith
    cases horder : firstMatch (lowerStr (trimSpace f)) order with
    | none =>
      have hno : ∀ pl ∈ patterns, containsSub (lowerStr (trimSpace f)) pl.1 = false :=
        fun pl hpl => (firstMatch_eq_none_iff _ _).1 horder pl (hperm.mem_iff.1 hpl)
      rw [(firstMatch_eq_none_iff _ _).2 hno]
    | some lab =>
      obtain ⟨pl, hmem, hc, hlab⟩ := firstMatch_some_mem _ _ _ horder
      have hmemP : pl ∈ patterns := hperm.mem_iff.2 hmem
      cases hpat : firstMatch (lowerStr (trimSpace f)) patterns with
      | none =>
        have := (firstMatch_eq_none_iff _ _).1 hpat pl hmemP
        rw [hc] at this
        exact absurd this (by decide)
      | some lab' =>
        obtain ⟨pl', hmem', hc', hlab'⟩ := firstMatch_some_mem _ _ _ hpat
        rw [← hlab, ← hlab']
        exact huniq pl hmemP pl' hmem' hc hc'

/-- C4 witness: the amended determinism theorem applied at the order
`patternsAlt` and the filename `"IMG_0007.jpg"`, which matches only the
`img_` pattern, so every order labels it `"Camera"`. -/
theorem c4_amended_determinism_witness :
    DetectSourceWith patternsAlt ("IMG_0007.jpg".data) =
        DetectSourceWith patterns ("IMG_0007.jpg".data) ∧
      DetectSourceWith patterns ("IMG_0007.jpg".data) = ("Camera".data) :=
  ⟨(c4_amended_determinism ("IMG_0007.jpg".data) patternsAlt patterns_perm_alt).2
      (by decide),
    by decide⟩

/-! ### Duplicate detectors (`organizer.IsDuplicate` and the LITE `isDuplicate`)

The filesystem is modelled by an environment giving the outcome of each
primitive call (`os.Stat` sizes, `GetFileHash` results); the embedding
records the hash calls actually performed in an event trace. -/

/-- Outcomes of the four primitive calls `IsDuplicate(p1, p2)` can make. -/
structure DupEnv where
  stat1 : Except GoStr Int
  stat2 : Except GoStr Int
  hash1 : Except GoStr GoStr
  hash2 : Except GoStr GoStr

/-- Events recorded by the duplicate-detector embedding. -/
inductive DupEv
  | statSrc
  | statDst
  | hashSrc
  | hashDst
deriving DecidableEq

/-- `organizer.IsDuplicate`, translated line by line: stat both files
(propagating errors), compare sizes, and only on equal sizes hash both files
(propagating errors). -/
def IsDuplicate (env : DupEnv) : Except GoStr Bool × List DupEv :=
  match env.stat1 with
  | .error e => (.error (("stat src: ".data) ++ e), [DupEv.statSrc])
  | .ok s1 =>
    match env.stat2 with
    | .error e => (.error (("stat dst: ".data) ++ e), [DupEv.statSrc, DupEv.statDst])
    | .ok s2 =>
      if s1 ≠ s2 then (.ok false, [DupEv.statSrc, DupEv.statDst])
      else
        match env.hash1 with
        | .error e =>
          (.error (("hash src: ".data) ++ e), [DupEv.statSrc, DupEv.statDst, DupEv.hashSrc])
        | .ok h1 =>
          match env.hash2 with
          | .error e =>
            (.error (("hash dst: ".data) ++ e),
              [DupEv.statSrc, DupEv.statDst, DupEv.hashSrc, DupEv.hashDst])
          | .ok h2 =>
            (.ok (decide (h1 = h2)),
              [DupEv.statSrc, DupEv.statDst, DupEv.hashSrc, DupEv.hashDst])

/-- The LITE CLI variant `isDuplicate` from `main.go`: hashes both paths and
returns `e1 == nil && e2 == nil && h1 == h2` — a `bool` with no error
channel. -/
structure LiteDupEnv where
  hash1 : Except GoStr GoStr
  hash2 : Except GoStr GoStr

/-- `main.isDuplicate` of the LITE variant. -/
def isDuplicateLite (env : LiteDupEnv) : Bool :=
  match env.hash1, env.hash2 with
  | .ok h1, .ok h2 => decide (h1 = h2)
  | _, _ => false

/-- C3 counterexample: in the LITE variant a hashing I/O failure silently
produces the answer "not a duplicate" — `isDuplicate` returns `false` and has
no error channel at all. -/
theorem c3_lite_hash_failure_silently_not_duplicate :
    (∃ e, (LiteDupEnv.mk (.error ("io".data)) (.ok ("h".data))).hash1 = .error e) ∧
      isDuplicateLite (LiteDupEnv.mk (.error ("io".data)) (.ok ("h".data))) = false :=
  ⟨⟨("io".data), rfl⟩, rfl⟩

/-- C3 amended: the core `IsDuplicate` surfaces every I/O failure it
encounters as an error — whenever it returns an answer (`.ok`), every stat
succeeded and every hash call it performed succeeded; the LITE variant's
`isDuplicate`, by contrast, silently answers `false` ("not a duplicate")
whenever hashing either file fails. -/
theorem c3_amended_error_surfacing (env : DupEnv) :
    (∀ b, (IsDuplicate env).1 = .ok b →
        (∃ s1, env.stat1 = .ok s1) ∧ (∃ s2, env.stat2 = .ok s2) ∧
        (DupEv.hashSrc ∈ (IsDuplicate env).2 → ∃ h1, env.hash1 = .ok h1) ∧
        (DupEv.hashDst ∈ (IsDuplicate env).2 → ∃ h2, env.hash2 = .ok h2)) ∧
    (∀ envL : LiteDupEnv,
        ((∃ e, envL.hash1 = .error e) ∨ (∃ e, envL.hash2 = .error e)) →
        isDuplicateLite envL = false) := by
  constructor
  · intro b hb
    obtain ⟨s1, s2, h1, h2⟩ := env
    cases s1 with
    | error e => simp [IsDuplicate] at hb
    | ok v1 =>
      cases s2 with
      | error e => simp [IsDuplicate] at hb
      | ok v2 =>
        by_cases hsz : v1 ≠ v2
        · refine ⟨⟨v1, rfl⟩, ⟨v2, rfl⟩, ?_, ?_⟩ <;>
            · intro hmem
              simp [IsDuplicate, hsz] at hmem
        · cases h1 with
          | error e => simp [IsDuplicate, hsz] at hb
          | ok w1 =>
            cases h2 with
            | error e => simp [IsDuplicate, hsz] at hb
            | ok w2 => exact ⟨⟨v1, rfl⟩, ⟨v2, rfl⟩, fun _ => ⟨w1, rfl⟩, fun _ => ⟨w2, rfl⟩⟩
  · intro envL hfail
    obtain ⟨h1, h2⟩ := envL
    rcases hfail with ⟨e, he⟩ | ⟨e, he⟩
    · simp only at he
      rw [he]
      cases h2 <;> rfl
    · simp only at he
      rw [he]
      cases h1 <;> rfl

/-- C3 witness: the amended theorem applied at a concrete environment in
which both stats and both hashes succeed, and at a LITE environment with a
failing first hash. -/
theorem c3_amended_error_surfacing_witness :
    (∃ s1, (DupEnv.mk (.ok 4) (.ok 4) (.ok ("h".data)) (.ok ("h".data))).stat1 = .ok s1) ∧
      isDuplicateLite (LiteDupEnv.mk (.error ("fail".data)) (.error ("fail".data))) = false :=
  ⟨((c3_amended_error_surfacing
        (DupEnv.mk (.ok 4) (.ok 4) (.ok ("h".data)) (.ok ("h".data)))).1 true rfl).1,
    (c3_amended_error_surfacing
        (DupEnv.mk (.ok 4) (.ok 4) (.ok ("h".data)) (.ok ("h".data)))).2
      (LiteDupEnv.mk (.error ("fail".data)) (.error ("fail".data)))
      (Or.inl ⟨("fail".data), rfl⟩)⟩

/-- C7: with both stats succeeding, unequal sizes give "not a duplicate" with
no hash call performed; equal sizes with both hashes succeeding give
"duplicate" exactly when the hashes are equal, both hash calls having been
performed. -/
theorem c7_size_first_then_hash (env : DupEnv) (s1 s2 : Int)
    (hs1 : env.stat1 = .ok s1) (hs2 : env.stat2 = .ok s2) :
    (s1 ≠ s2 →
        (IsDuplicate env).1 = .ok false ∧
        DupEv.hashSrc ∉ (IsDuplicate env).2 ∧ DupEv.hashDst ∉ (IsDuplicate env).2) ∧
    (s1 = s2 → ∀ h1 h2, env.hash1 = .ok h1 → env.hash2 = .ok h2 →
        (∃ b, (IsDuplicate env).1 = .ok b ∧ (b = true ↔ h1 = h2)) ∧
        DupEv.hashSrc ∈ (IsDuplicate env).2 ∧ DupEv.hashDst ∈ (IsDuplicate env).2) := by
  constructor
  · intro hne
    obtain ⟨t1, t2, u1, u2⟩ := env
    simp only at hs1 hs2
    subst hs1
    subst hs2
    refine ⟨?_, ?_, ?_⟩ <;> simp [IsDuplicate, hne]
  · intro heq h1 h2 hh1 hh2
    obtain ⟨t1, t2, u1, u2⟩ := env
    simp only at hs1 hs2 hh1 hh2
    subst hs1
    subst hs2
    subst hh1
    subst hh2
    subst heq
    refine ⟨⟨decide (h1 = h2), ?_, by simp⟩, ?_, ?_⟩ <;> simp [IsDuplicate]

/-- C7 witness: the theorem applied at equal sizes with equal hashes, and at
unequal sizes. -/
theorem c7_size_first_then_hash_witness :
    (IsDuplicate (DupEnv.mk (.ok 7) (.ok 9) (.ok ("h".data)) (.ok ("h".data)))).1 =
        .ok false ∧
      DupEv.hashSrc ∉
        (IsDuplicate (DupEnv.mk (.ok 7) (.ok 9) (.ok ("h".data)) (.ok ("h".data)))).2 :=
  ⟨((c7_size_first_then_hash
        (DupEnv.mk (.ok 7) (.ok 9) (.ok ("h".data)) (.ok ("h".data))) 7 9 rfl rfl).1
      (by decide)).1,
    ((c7_size_first_then_hash
        (DupEnv.mk (.ok 7) (.ok 9) (.ok ("h".data)) (.ok ("h".data))) 7 9 rfl rfl).1
      (by decide)).2.1⟩

/-! ### Conflict resolver (`organizer.ResolveConflict`)

The filesystem is modelled by a predicate `fs : GoStr → Bool`; `fs p = false`
means `os.Stat(p)` reports `IsNotExist` (the condition on which the Go loop
returns the candidate). -/

/-- Go `os.IsPathSeparator` (Windows: both slashes). -/
def isPathSep (c : Char) : Bool := c == '/' || c == '\\'

/-- Helper for `goExt`: scans the reversed path, collecting the characters
after (in original order) the scan position. -/
def goExtAux : GoStr → GoStr → GoStr
  | [], _ => []
  | c :: rest, acc =>
    if isPathSep c then [] else if c = '.' then '.' :: acc else goExtAux rest (c :: acc)

/-- Go `filepath.Ext`: the suffix beginning at the final dot of the final
path element, `""` if there is none. -/
def goExt (path : GoStr) : GoStr := goExtAux path.reverse []

/-- Go `strings.TrimSuffix`. -/
def trimSuffix (s suf : GoStr) : GoStr :=
  if suf.isSuffixOf s then s.take (s.length - suf.length) else s

example : goExt ("a/b.txt".data) = (".txt".data) := by decide

example : trimSuffix ("a/b.txt".data) (".txt".data) = ("a/b".data) := by decide

example : goExt ("noext".data) = [] := by decide

/-- The candidate `fmt.Sprintf("%s_%d%s", base, i, ext)`. -/
def candidate (base ext : GoStr) (i : Nat) : GoStr :=
  base ++ ('_' :: (Nat.repr i).data) ++ ext

/-- The `for i := 1; i < 10000; i++` loop of `ResolveConflict`, with explicit
fuel. -/
def resolveLoop (fs : GoStr → Bool) (base ext : GoStr) : Nat → Nat → Option GoStr
  | _, 0 => none
  | i, fuel + 1 =>
    if fs (candidate base ext i) = false then some (candidate base ext i)
    else resolveLoop fs base ext (i + 1) fuel

/-- `organizer.ResolveConflict`: try `<base>_1<ext>`, …, `<base>_9999<ext>`
and return the first candidate that does not exist, else the original path. -/
def ResolveConflict (fs : GoStr → Bool) (path : GoStr) : GoStr :=
  match resolveLoop fs (trimSuffix path (goExt path)) (goExt path) 1 9999 with
  | some p => p
  | none => path

theorem resolveLoop_none (fs : GoStr → Bool) (base ext : GoStr) :
    ∀ (fuel start : Nat),
      (∀ i, start ≤ i → i < start + fuel → fs (candidate base ext i) = true) →
      resolveLoop fs base ext start fuel = none := by
  intro fuel
  induction fuel with
  | zero =>
    intro start _
    rfl
  | succ n ih =>
    intro start h
    have hs : fs (candidate base ext start) = true := h start le_rfl (by omega)
    rw [resolveLoop, if_neg (by simp [hs])]
    exact ih (start + 1) (fun i hi1 hi2 => h i (by omega) (by omega))

theorem resolveLoop_some (fs : GoStr → Bool) (base ext : GoStr) :
    ∀ (fuel start j : Nat), start ≤ j → j < start + fuel →
      fs (candidate base ext j) = false →
      (∀ k, start ≤ k → k < j → fs (candidate base ext k) = true) →
      resolveLoop fs base ext start fuel = some (candidate base ext j) := by
  intro fuel
  induction fuel with
  | zero =>
    intro start j h1 h2
    omega
  | succ n ih =>
    intro start j h1 h2 hj hk
    by_cases hsj : j = start
    · subst hsj
      rw [resolveLoop, if_pos hj]
    · have hs : fs (candidate base ext start) = true := hk start le_rfl (by omega)
      rw [resolveLoop, if_neg (by simp [hs])]
      exact ih (start + 1) j (by omega) (by omega) hj (fun k hk1 hk2 => hk k (by omega) hk2)

/-- C8: the conflict resolver returns the original path when all 9999 suffixed
candidates exist; and it returns the first (least-index) non-existing
candidate `<base>_j<ext>` otherwise, a path that does not exist. -/
theorem c8_first_free_candidate (fs : GoStr → Bool) (path : GoStr) :
    ((∀ i, 1 ≤ i → i ≤ 9999 →
        fs (candidate (trimSuffix path (goExt path)) (goExt path) i) = true) →
      ResolveConflict fs path = path) ∧
    (∀ j, 1 ≤ j → j ≤ 9999 →
      fs (candidate (trimSuffix path (goExt path)) (goExt path) j) = false →
      (∀ k, 1 ≤ k → k < j →
        fs (candidate (trimSuffix path (goExt path)) (goExt path) k) = true) →
      ResolveConflict fs path = candidate (trimSuffix path (goExt path)) (goExt path) j ∧
        fs (ResolveConflict fs path) = false) := by
  constructor
  · intro hall
    unfold ResolveConflict
    rw [resolveLoop_none fs _ _ 9999 1 (fun i hi1 hi2 => hall i hi1 (by omega))]
  · intro j hj1 hj2 hj hk
    have hsome := resolveLoop_some fs (trimSuffix path (goExt path)) (goExt path)
      9999 1 j hj1 (by omega) hj hk
    unfold ResolveConflict
    rw [hsome]
    exact ⟨rfl, hj⟩

/-- C8 witness: with only `"a.txt"` existing, the resolver returns
`"a_1.txt"`; with every path existing, it returns the original path. -/
theorem c8_first_free_candidate_witness :
    ResolveConflict (fun p => decide (p = ("a.txt".data))) ("a.txt".data) =
        ("a_1.txt".data) ∧
      ResolveConflict (fun _ => true) ("a.txt".data) = ("a.txt".data) := by
  constructor
  · have h := ((c8_first_free_candidate (fun p => decide (p = ("a.txt".data)))
        ("a.txt".data)).2 1 (by decide) (by decide) (by decide)
        (fun k hk1 hk2 => absurd hk2 (by omega))).1
    rw [h]
    decide
  · exact (c8_first_free_candidate (fun _ => true) ("a.txt".data)).1
      (fun i _ _ => rfl)

/-! ### Atomic mover (`organizer.AtomicMove`)

The environment fixes the outcome of each primitive call in the order the Go
code makes them (`GetFileHash(src)`, `os.Rename`, `CopyFile`,
`os.Remove(src)`, `GetFileHash(dst)`, `os.Remove(dst)`); hash results are
environment-chosen, which also models external interference with the files on
disk.  The embedding returns the Go function's result, the final presence of
the two files, and the trace of calls performed, in order. -/

/-- Outcomes of the primitive calls `AtomicMove(src, dst)` can make. -/
structure MoveEnv where
  hashSrcPre : Except GoStr GoStr
  renameOk : Bool
  copyOk : Bool
  removeSrcOk : Bool
  hashDstPost : Except GoStr GoStr
  removeDstOk : Bool

/-- Presence of the source and destination files. -/
structure FsState where
  srcExists : Bool
  dstExists : Bool
deriving DecidableEq

/-- Calls recorded by the atomic-mover embedding, in execution order. -/
inductive MoveEv
  | hashSrc
  | rename
  | copy
  | removeSrc
  | hashDst
  | removeDst
deriving DecidableEq

/-- The verification tail of `AtomicMove` (lines computing `th`, comparing it
to `sh`, and deleting `dst` on mismatch). -/
def verifyPhase (env : MoveEnv) (sh : GoStr) (st : FsState) (evs : List MoveEv) :
    Except GoStr Unit × FsState × List MoveEv :=
  match env.hashDstPost with
  | .error e => (.error (("post-move hash: ".data) ++ e), st, evs ++ [MoveEv.hashDst])
  | .ok th =>
    if sh ≠ th then
      (.error ("integrity failed: hash mismatch".data),
        (if env.removeDstOk then { st with dstExists := false } else st),
        evs ++ [MoveEv.hashDst, MoveEv.removeDst])
    else (.ok (), st, evs ++ [MoveEv.hashDst])

/-- `organizer.AtomicMove`, translated line by line: pre-move hash of the
source; `os.Rename`; on rename failure `CopyFile` and then — immediately —
`os.Remove(src)` (its error only logged); then the post-move hash of the
destination is compared with the pre-move hash, deleting the destination on
mismatch.  (A failed copy may leave a partial destination; it is modelled as
leaving the destination's presence unchanged, a branch none of the claims
exercises.) -/
def AtomicMove (env : MoveEnv) (st : FsState) :
    Except GoStr Unit × FsState × List MoveEv :=
  match env.hashSrcPre with
  | .error e => (.error (("pre-move hash: ".data) ++ e), st, [MoveEv.hashSrc])
  | .ok sh =>
    if env.renameOk then
      verifyPhase env sh { srcExists := false, dstExists := true }
        [MoveEv.hashSrc, MoveEv.rename]
    else if env.copyOk then
      verifyPhase env sh
        { srcExists := st.srcExists && !env.removeSrcOk, dstExists := true }
        [MoveEv.hashSrc, MoveEv.rename, MoveEv.copy, MoveEv.removeSrc]
    else
      (.error (("copy failed".data)), st,
        [MoveEv.hashSrc, MoveEv.rename, MoveEv.copy])

/-- The environment of a cross-volume move in which everything succeeds:
rename fails, copy succeeds, both hashes agree. -/
def envCrossOk : MoveEnv :=
  MoveEnv.mk (.ok ("h1".data)) false true true (.ok ("h1".data)) true

/-- C1: in the copy-fallback path, `AtomicMove` removes the source *before*
computing the destination's verification hash: in the recorded call trace of
a successful cross-volume move, `os.Remove(src)` (index 3) strictly precedes
`GetFileHash(dst)` (index 4), contradicting the claimed ordering. -/
theorem c1_remove_src_precedes_hash_verify :
    (AtomicMove envCrossOk (FsState.mk true false)).2.2 =
        [MoveEv.hashSrc, MoveEv.rename, MoveEv.copy, MoveEv.removeSrc, MoveEv.hashDst] ∧
      (AtomicMove envCrossOk (FsState.mk true false)).2.2.indexOf MoveEv.removeSrc <
        (AtomicMove envCrossOk (FsState.mk true false)).2.2.indexOf MoveEv.hashDst ∧
      (AtomicMove envCrossOk (FsState.mk true false)).1 = .ok () :=
  ⟨rfl, by decide, rfl⟩

/-- The environment of a cross-volume move whose post-copy verification hash
differs from the pre-move source hash (a corrupted copy), all other calls
succeeding. -/
def envCrossMismatch : MoveEnv :=
  MoveEnv.mk (.ok ("h1".data)) false true true (.ok ("h2".data)) true

/-- C2: on a post-copy integrity mismatch, `AtomicMove` does return the
integrity error and delete the destination, but the source was already
removed right after the copy — the final state has *neither* file, instead
of the claimed "source left in place at its original path". -/
theorem c2_integrity_mismatch_loses_both_files :
    AtomicMove envCrossMismatch (FsState.mk true false) =
      (.error ("integrity failed: hash mismatch".data), FsState.mk false false,
        [MoveEv.hashSrc, MoveEv.rename, MoveEv.copy, MoveEv.removeSrc,
          MoveEv.hashDst, MoveEv.removeDst]) :=
  rfl

/-- An environment in which the rename succeeds but the post-move hash read
of the destination fails. -/
def envRenameHashFail : MoveEnv :=
  MoveEnv.mk (.ok ("h1".data)) true true true (.error ("io".data)) true

/-- C10 counterexample: when the rename succeeds and the post-move hash read
fails, `AtomicMove` reports failure but does *not* delete the destination
(no `os.Remove(dst)` call occurs and the destination is still present),
contrary to the claim that a failed hash read also triggers deletion. -/
theorem c10_hash_read_failure_keeps_destination :
    (AtomicMove envRenameHashFail (FsState.mk true false)).1 =
        .error (("post-move hash: ".data) ++ ("io".data)) ∧
      (AtomicMove envRenameHashFail (FsState.mk true false)).2.1.dstExists = true ∧
      MoveEv.removeDst ∉ (AtomicMove envRenameHashFail (FsState.mk true false)).2.2 :=
  ⟨rfl, rfl, by decide⟩

/-- C10 amended: after a successful rename, `AtomicMove` re-hashes the
destination and compares it with the pre-move source hash; if the hash read
fails it reports failure leaving the destination in place (no deletion); if
the hashes differ it returns the integrity error and deletes the destination
— at that point the only remaining copy, the source no longer existing after
the rename. -/
theorem c10_amended_verify_after_rename (env : MoveEnv) (st : FsState) (sh : GoStr)
    (hpre : env.hashSrcPre = .ok sh) (hren : env.renameOk = true) :
    (∀ e, env.hashDstPost = .error e →
        (AtomicMove env st).1 = .error (("post-move hash: ".data) ++ e) ∧
        (AtomicMove env st).2.1.dstExists = true ∧
        MoveEv.removeDst ∉ (AtomicMove env st).2.2) ∧
    (∀ th, env.hashDstPost = .ok th → sh ≠ th →
        (AtomicMove env st).1 = .error ("integrity failed: hash mismatch".data) ∧
        (AtomicMove env st).2.1.srcExists = false ∧
        MoveEv.removeDst ∈ (AtomicMove env st).2.2 ∧
        (env.removeDstOk = true → (AtomicMove env st).2.1.dstExists = false)) := by
  constructor
  · intro e he
    simp [AtomicMove, hpre, hren, verifyPhase, he]
  · intro th hth hne
    simp [AtomicMove, hpre, hren, verifyPhase, hth, hne]
    constructor
    · by_cases hrd : env.removeDstOk = true <;> simp [hrd]
    · intro hrd
      simp [hrd]

/-- C10 witness: the amended theorem applied at an environment with a
successful rename and mismatching hashes. -/
theorem c10_amended_verify_after_rename_witness :
    (AtomicMove (MoveEnv.mk (.ok ("a".data)) true true true (.ok ("b".data)) true)
          (FsState.mk true false)).1 =
        .error ("integrity failed: hash mismatch".data) ∧
      (AtomicMove (MoveEnv.mk (.ok ("a".data)) true true true (.ok ("b".data)) true)
          (FsState.mk true false)).2.1.srcExists = false :=
  ⟨((c10_amended_verify_after_rename
        (MoveEnv.mk (.ok ("a".data)) true true true (.ok ("b".data)) true)
        (FsState.mk true false) ("a".data) rfl rfl).2 ("b".data) rfl (by decide)).1,
    ((c10_amended_verify_after_rename
        (MoveEnv.mk (.ok ("a".data)) true true true (.ok ("b".data)) true)
        (FsState.mk true false) ("a".data) rfl rfl).2 ("b".data) rfl (by decide)).2.1⟩

/-! ### Orchestrator category label (`organizer.MoveFile`, lines 131–144) -/

/-- The final `if device == "Unknown" || device == ""` fallback of
`MoveFile`. -/
def fallbackLabel (d : GoStr) : GoStr :=
  if d = ("Unknown".data) ∨ d = [] then ("Other_Sorted".data) else d

/-- The destination-category computation of `organizer.MoveFile`, translated
from the sequence of reassignments of its `device` variable (the raw
`info.Source` and `info.Device` are tested, the sanitized values used). -/
def computeCategory (source device : GoStr) : GoStr :=
  fallbackLabel
    (if source ≠ [] ∧ source ≠ ("Other_Imports".data) then
      if device = ("Unknown".data) ∨ device = [] then SanitizeFolderName source
      else SanitizeFolderName (source ++ '_' :: device)
    else SanitizeFolderName device)

/-- The spec's "if the resulting label is empty/unknown, use Other_Sorted". -/
def specFallback (label : GoStr) : GoStr :=
  if label = [] ∨ label = ("Unknown".data) then ("Other_Sorted".data) else label

/-- Modelled from the spec's words (§4.6 step 2 of the specification): if
`source` is a known classification other than the generic fallback, combine
it with `device` when `device` is informative, otherwise use `source` alone;
when `source` is the fallback use `device` alone; if the resulting label is
empty or unknown, use `"Other_Sorted"`. -/
def categoryLabelSpec (source device : GoStr) : GoStr :=
  specFallback
    (if source ≠ [] ∧ source ≠ ("Other_Imports".data) then
      if device ≠ [] ∧ device ≠ ("Unknown".data) then
        SanitizeFolderName (source ++ '_' :: device)
      else SanitizeFolderName source
    else SanitizeFolderName device)

theorem fallbackLabel_eq_specFallback (d : GoStr) : fallbackLabel d = specFallback d := by
  unfold fallbackLabel specFallback
  by_cases h1 : d = ("Unknown".data)
  · simp [h1]
  · by_cases h2 : d = []
    · simp [h1, h2]
    · simp [h1, h2]

/-- C9: the category label computed by `MoveFile` coincides with the
specification's case analysis for every source/device pair, and the result is
never empty and never `"Unknown"`. -/
theorem c9_category_label_refines_spec (source device : GoStr) :
    computeCategory source device = categoryLabelSpec source device ∧
      computeCategory source device ≠ [] ∧
      computeCategory source device ≠ ("Unknown".data) := by
  refine ⟨?_, ?_⟩
  · unfold computeCategory categoryLabelSpec
    have hinner :
        (if device = ("Unknown".data) ∨ device = [] then SanitizeFolderName source
          else SanitizeFolderName (source ++ '_' :: device)) =
        (if device ≠ [] ∧ device ≠ ("Unknown".data) then
          SanitizeFolderName (source ++ '_' :: device)
        else SanitizeFolderName source) := by
      by_cases hd : device = ("Unknown".data) ∨ device = []
      · rw [if_pos hd, if_neg (by tauto)]
      · rw [if_neg hd, if_pos (by tauto)]
    rw [hinner, fallbackLabel_eq_specFallback]
  · unfold computeCategory fallbackLabel
    by_cases hl :
        (if source ≠ [] ∧ source ≠ ("Other_Imports".data) then
          if device = ("Unknown".data) ∨ device = [] then SanitizeFolderName source
          else SanitizeFolderName (source ++ '_' :: device)
        else SanitizeFolderName device) = ("Unknown".data) ∨
        (if source ≠ [] ∧ source ≠ ("Other_Imports".data) then
          if device = ("Unknown".data) ∨ device = [] then SanitizeFolderName source
          else SanitizeFolderName (source ++ '_' :: device)
        else SanitizeFolderName device) = []
    · rw [if_pos hl]
      constructor <;> decide
    · rw [if_neg hl]
      push_neg at hl
      exact ⟨hl.2, hl.1⟩

-- Spec §8 Scenario A, replayed on the embedding: source `"Camera"` (from
-- `DetectSource` on `IMG_0001.jpg`) with device `"Pixel 6"` lands in
-- category `Camera_Pixel 6`.
example :
    computeCategory (DetectSourceWith patterns ("IMG_0001.jpg".data)) ("Pixel 6".data) =
      ("Camera_Pixel 6".data) := by
  decide

end Lume
